import Mathlib

/-!
Verification of the tactical core of the screeps-arena bot
(src/beta-spawn_and_swamp/main.mjs, two variants separated in the file, and
the earlier variant src/unnamed/part_003).

The embedding below translates the state tables and the state-updating
functions of the bot into pure Lean functions.  JS objects keyed by creep id
or squad name become association lists `List (String × _)` (lookup finds the
first matching key, insertion overwrites), JS `Set`s become `List String`
with insert-if-absent, and the external collaborators (`findPath`,
`getTicks`, the spawn) become explicit parameters.  The squad focus-target
table (`squadTargets`, keyed by squad name holding enemy ids) is not modelled
because no claim below concerns it.
-/

namespace ScreepsArena

/-- Creep identifier, a stable string id as in the game API. -/
abbrev CreepId := String

/-- Grid position with integer coordinates, as read from `creep.x` / `creep.y`. -/
structure Pos where
  x : Int
  y : Int
deriving DecidableEq, Repr, Inhabited

/-- Target identity key computed in `cachedMoveTo`:
`const targetId = target.id \x7c\x7c x,y` — the object id when the target is a
game object, else its coordinate pair. -/
inductive TargetId where
  | obj : String → TargetId
  | coord : Int → Int → TargetId
deriving DecidableEq, Repr

/-- One entry of the `creepPaths` cache:
`\x7b target: targetId, tick: lastCalculatedTick, path, pathIndex \x7d`. -/
structure PathCacheEntry where
  target : TargetId
  tick : Nat
  path : List Pos
  pathIndex : Nat
deriving DecidableEq, Repr

/-- Body part kinds used by the bot (MOVE, ATTACK, RANGED_ATTACK, WORK,
CARRY, HEAL, TOUGH). -/
inductive PartType where
  | move
  | attack
  | rangedAttack
  | work
  | carry
  | heal
  | tough
deriving DecidableEq, Repr

/-- The data of one friendly creep the squad logic reads: its id and its
loadout (ordered list of part kinds). -/
structure CreepInfo where
  id : CreepId
  body : List PartType
deriving DecidableEq, Repr

/-- The production facility as read by the deployment code: only its
`spawning` flag matters (`mySpawn.spawning`). -/
structure SpawnState where
  spawning : Bool
deriving DecidableEq, Repr

/-- Association-list lookup, mirroring JS object property read `m[k]`:
the first entry with the given key, if any. -/
def lookupA {α : Type} (m : List (String × α)) (k : String) : Option α :=
  (m.find? (fun p => decide (p.1 = k))).map (fun p => p.2)

/-- Association-list update, mirroring JS object property write `m[k] = v`:
overwrites any previous binding of the key. -/
def insertA {α : Type} (m : List (String × α)) (k : String) (v : α) : List (String × α) :=
  (k, v) :: m.filter (fun p => decide (p.1 ≠ k))

/-- Set insertion, mirroring JS `Set.add`: appends if absent. -/
def setAdd (s : List CreepId) (k : CreepId) : List CreepId :=
  if k ∈ s then s else s ++ [k]

/-- The process-wide mutable trackers of the richest variant (module-level
`let` bindings of main.mjs, second variant). -/
structure BotState where
  creepPaths : List (String × PathCacheEntry)
  deployedAttackers : List CreepId
  deployedMedics : List CreepId
  squadAssignments : List (String × String)
  squadLeaders : List (String × String)
  nextSquadIndex : Nat
  killSquadDeployed : Bool
  killSquadCreeps : List CreepId
  killSquadReachedWaypoint : List CreepId
deriving DecidableEq, Repr

/-- NATO_ALPHABET, the fixed ordered squad name pool. -/
def natoAlphabet : List String :=
  ["Alpha", "Bravo", "Charlie", "Delta", "Echo", "Foxtrot", "Golf", "Hotel",
   "India", "Juliet", "Kilo", "Lima", "Mike", "November", "Oscar", "Papa",
   "Quebec", "Romeo", "Sierra", "Tango", "Uniform", "Victor", "Whiskey",
   "Xray", "Yankee", "Zulu"]

/-- The off-path check of `cachedMoveTo` (main.mjs): when the cursor is
strictly inside the path, compare the creep position with the step the
cursor last aimed at (`path[pathIndex - 1]`) under Chebyshev distance and
flag a drift beyond `OFFPATH_DETECTION_THRESHOLD`. -/
def offPath (thresh : Nat) (pos : Pos) (e : PathCacheEntry) : Bool :=
  if 0 < e.pathIndex ∧ e.pathIndex < e.path.length then
    let expected := e.path.getD (e.pathIndex - 1) default
    decide (thresh < max (pos.x - expected.x).natAbs (pos.y - expected.y).natAbs)
  else
    false

/-- The `needsNewPath` condition of `cachedMoveTo` (main.mjs): no cache entry,
or target identity changed, or at least `PATH_REFRESH_INTERVAL` ticks elapsed,
or cursor exhausted, or creep significantly off path. -/
def needsNewPath (refresh thresh tick : Nat) (pos : Pos) (tid : TargetId) :
    Option PathCacheEntry → Bool
  | none => true
  | some e =>
    decide (tid ≠ e.target) || decide (refresh ≤ tick - e.tick) ||
      decide (e.path.length ≤ e.pathIndex) || offPath thresh pos e

/-- The follow phase of `cachedMoveTo` (main.mjs): when the cursor is inside
the step list, issue a move toward `path[pathIndex]` (the returned step), and
increment the cursor only when the creep already stands on that step. -/
def followStep (pos : Pos) (e : PathCacheEntry) : PathCacheEntry × Option Pos :=
  if e.pathIndex < e.path.length then
    let nextStep := e.path.getD e.pathIndex default
    if pos = nextStep then
      ({ e with pathIndex := e.pathIndex + 1 }, some nextStep)
    else
      (e, some nextStep)
  else
    (e, none)

/-- `cachedMoveTo` of main.mjs (both variants share this logic; they differ
only in the constants, which are parameters here).  `fp` is the result the
external `findPath` service would return if invoked this call; when a new
path is needed and `fp` is null or empty the call returns with no movement
action and the cache untouched.  The second component is the issued movement,
as the step the creep was aimed at (`getDirection` is a pure projection of
it), or `none` when no move is issued. -/
def cachedMoveTo (refresh thresh tick : Nat) (cid : CreepId) (pos : Pos)
    (tid : TargetId) (fp : Option (List Pos)) (s : BotState) : BotState × Option Pos :=
  let cache := lookupA s.creepPaths cid
  if needsNewPath refresh thresh tick pos tid cache then
    match fp with
    | none => (s, none)
    | some [] => (s, none)
    | some (p0 :: prest) =>
      let r := followStep pos ⟨tid, tick, p0 :: prest, 0⟩
      ({ s with creepPaths := insertA s.creepPaths cid r.1 }, r.2)
  else
    match cache with
    | some e =>
      let r := followStep pos e
      ({ s with creepPaths := insertA s.creepPaths cid r.1 }, r.2)
    | none => (s, none)

/-- `cachedMoveTo` of the earliest variant (src/unnamed/part_003): no
off-path check, no null guard on the `findPath` result, and the cursor is
incremented unconditionally after each issued move.  Modelled for non-null
`findPath` results (`fp : List Pos`); the JS stores a null path unguarded,
which no claim exercises. -/
def cachedMoveToV0 (refresh tick : Nat) (cid : CreepId) (pos : Pos)
    (tid : TargetId) (fp : List Pos) (s : BotState) : BotState × Option Pos :=
  let cache := lookupA s.creepPaths cid
  let needsNew : Bool :=
    match cache with
    | none => true
    | some e =>
      decide (tid ≠ e.target) || decide (refresh ≤ tick - e.tick) ||
        decide (e.path.length ≤ e.pathIndex)
  let s1 :=
    if needsNew then
      { s with creepPaths := insertA s.creepPaths cid ⟨tid, tick, fp, 0⟩ }
    else s
  match lookupA s1.creepPaths cid with
  | some e =>
    if e.pathIndex < e.path.length then
      ({ s1 with creepPaths := insertA s1.creepPaths cid { e with pathIndex := e.pathIndex + 1 } },
        some (e.path.getD e.pathIndex default))
    else (s1, none)
  | none => (s1, none)

/-- `cleanupDeadCreepState` of main.mjs (second variant): prune the path
cache, the squad assignment map and the four deployment-tracking sets of any
id not in the live roster, then for each squad whose recorded leader is dead
promote the first live deployed attacker still assigned to that squad, or
drop the leader entry when none remains.  `alive` is the live roster
(`myCreeps`) in iteration order. -/
def cleanupDeadCreepState (alive : List CreepId) (s : BotState) : BotState :=
  let assigns := s.squadAssignments.filter (fun p => decide (p.1 ∈ alive))
  let depA := s.deployedAttackers.filter (fun c => decide (c ∈ alive))
  let leaders := s.squadLeaders.filterMap (fun p =>
    if p.2 ∈ alive then some p
    else
      match alive.find? (fun c =>
          decide (lookupA assigns c = some p.1) && decide (c ∈ depA)) with
      | some c => some (p.1, c)
      | none => none)
  { creepPaths := s.creepPaths.filter (fun p => decide (p.1 ∈ alive))
    deployedAttackers := depA
    deployedMedics := s.deployedMedics.filter (fun c => decide (c ∈ alive))
    squadAssignments := assigns
    squadLeaders := leaders
    nextSquadIndex := s.nextSquadIndex
    killSquadDeployed := s.killSquadDeployed
    killSquadCreeps := s.killSquadCreeps.filter (fun c => decide (c ∈ alive))
    killSquadReachedWaypoint :=
      s.killSquadReachedWaypoint.filter (fun c => decide (c ∈ alive)) }

/-- Count of parts of a kind in a loadout (`body.filter(p => p.type === t).length`). -/
def bodyCount (body : List PartType) (t : PartType) : Nat :=
  (body.filter (fun p => decide (p = t))).length

/-- `deployKillSquad` of main.mjs: skipped while the spawn is actively
spawning; otherwise, when the flag is still unset and at least
KILL_SQUAD_SIZE = 2 not-yet-deployed attackers with exactly 4 MOVE and
2 ATTACK parts exist, add the first two to the kill squad and the deployed
set and set the one-shot flag. -/
def deployKillSquad (attackers : List CreepInfo) (spawn? : Option SpawnState)
    (s : BotState) : BotState :=
  if (match spawn? with | some sp => sp.spawning | none => false) then s
  else
    let cands := attackers.filter (fun a =>
      (!(decide (a.id ∈ s.deployedAttackers) || decide (a.id ∈ s.killSquadCreeps))) &&
        decide (bodyCount a.body PartType.move = 4) &&
        decide (bodyCount a.body PartType.attack = 2))
    if s.killSquadDeployed = false ∧ 2 ≤ cands.length then
      let chosen := cands.take 2
      { s with
        killSquadCreeps := chosen.foldl (fun acc a => setAdd acc a.id) s.killSquadCreeps
        deployedAttackers := chosen.foldl (fun acc a => setAdd acc a.id) s.deployedAttackers
        killSquadDeployed := true }
    else s

/-- The undeployed-attacker pool of `deployAttackWaves`: attackers neither
deployed nor kill-squad members. -/
def undeployedAttackersOf (attackers : List CreepInfo) (s : BotState) : List CreepInfo :=
  attackers.filter (fun a =>
    (!(decide (a.id ∈ s.deployedAttackers))) && (!(decide (a.id ∈ s.killSquadCreeps))))

/-- The undeployed-medic pool of `deployAttackWaves`. -/
def undeployedMedicsOf (medics : List CreepInfo) (s : BotState) : List CreepInfo :=
  medics.filter (fun m => !(decide (m.id ∈ s.deployedMedics)))

/-- `deployAttackWaves` of main.mjs (second variant): skipped while the spawn
is actively spawning; otherwise, when at least ATTACKERS_PER_SQUAD = 3
undeployed attackers and MEDICS_PER_SQUAD = 1 undeployed medics exist, tag
the first three attackers and the first medic with the next cyclic NATO name,
record the first attacker as squad leader, mark all four deployed, and
advance `nextSquadIndex`. -/
def deployAttackWaves (attackers medics : List CreepInfo) (spawn? : Option SpawnState)
    (s : BotState) : BotState :=
  let undepA := undeployedAttackersOf attackers s
  let undepM := undeployedMedicsOf medics s
  if (match spawn? with | some sp => sp.spawning | none => false) then s
  else if 3 ≤ undepA.length ∧ 1 ≤ undepM.length then
    let squadName := natoAlphabet.getD (s.nextSquadIndex % natoAlphabet.length) ""
    let chosenA := undepA.take 3
    let chosenM := undepM.take 1
    { s with
      deployedAttackers := chosenA.foldl (fun acc a => setAdd acc a.id) s.deployedAttackers
      deployedMedics := chosenM.foldl (fun acc m => setAdd acc m.id) s.deployedMedics
      squadAssignments :=
        (chosenA ++ chosenM).foldl (fun acc c => insertA acc c.id squadName) s.squadAssignments
      squadLeaders :=
        match undepA with
        | a0 :: _ => insertA s.squadLeaders squadName a0.id
        | [] => s.squadLeaders
      nextSquadIndex := s.nextSquadIndex + 1 }
  else s

/-- The process-wide mutable trackers of the first main.mjs variant
(lines 5-10): it has no squad-leader, squad-target or kill-squad tables at
all — only the path cache, the two deployed sets, the squad-assignment map
and the squad counter. -/
structure BotStateV1 where
  creepPaths : List (String × PathCacheEntry)
  deployedAttackers : List CreepId
  deployedMedics : List CreepId
  squadAssignments : List (String × String)
  nextSquadIndex : Nat
deriving DecidableEq, Repr

/-- `deployAttackWaves` of the first main.mjs variant (lines 220-244): when
at least ATTACKERS_PER_SQUAD = 3 undeployed attackers and
MEDICS_PER_SQUAD = 1 undeployed medics exist, tag the first three attackers
and the first medic with the next cyclic NATO name, mark them deployed, and
advance `nextSquadIndex`.  Unlike the second variant it takes no spawn input
at all — its `loop` invokes it unconditionally every tick, whether or not
the facility is mid-production — and it records no leader: the variant has
no squad-leader table. -/
def deployAttackWavesV1 (attackers medics : List CreepInfo) (s : BotStateV1) : BotStateV1 :=
  let undepA := attackers.filter (fun a => !(decide (a.id ∈ s.deployedAttackers)))
  let undepM := medics.filter (fun m => !(decide (m.id ∈ s.deployedMedics)))
  if 3 ≤ undepA.length ∧ 1 ≤ undepM.length then
    let squadName := natoAlphabet.getD (s.nextSquadIndex % natoAlphabet.length) ""
    let chosenA := undepA.take 3
    let chosenM := undepM.take 1
    { s with
      deployedAttackers := chosenA.foldl (fun acc a => setAdd acc a.id) s.deployedAttackers
      deployedMedics := chosenM.foldl (fun acc m => setAdd acc m.id) s.deployedMedics
      squadAssignments :=
        (chosenA ++ chosenM).foldl (fun acc c => insertA acc c.id squadName) s.squadAssignments
      nextSquadIndex := s.nextSquadIndex + 1 }
  else s

/-- `calculateKillSquadWaypoint` of main.mjs: null when either spawn is
unavailable or the base-to-base shortest path (passed in as the `findPath`
result) is null or empty; otherwise inspect the path midpoint
(`path[floor(length / 2)]`) against the y = 50 center line and the enemy
spawn against the x = 50 line and pick the fixed corner waypoint on the
opposite lateral half, on the enemy side of the map. -/
def calculateKillSquadWaypoint (mySpawn? enemySpawn? : Option Pos)
    (shortestPath? : Option (List Pos)) : Option Pos :=
  match mySpawn?, enemySpawn? with
  | some _, some enemySpawn =>
    let enemyIsRight := decide (50 < enemySpawn.x)
    match shortestPath? with
    | none => none
    | some [] => none
    | some (p0 :: prest) =>
      let sp := p0 :: prest
      let midPoint := sp.getD (sp.length / 2) default
      let goesNorth := decide (midPoint.y < 50)
      if enemyIsRight then
        if goesNorth then some ⟨87, 89⟩ else some ⟨87, 10⟩
      else
        if goesNorth then some ⟨12, 89⟩ else some ⟨12, 10⟩
  | _, _ => none

/-- The waypoint caching step at the top of `runKillSquadBehavior`:
`if (!killSquadWaypoint) killSquadWaypoint = calculateKillSquadWaypoint(...)`
— an already-set waypoint is returned unchanged, the computation runs only
while the waypoint is still unset. -/
def updateKillSquadWaypoint (wp? : Option Pos) (mySpawn? enemySpawn? : Option Pos)
    (shortestPath? : Option (List Pos)) : Option Pos :=
  match wp? with
  | some wp => some wp
  | none => calculateKillSquadWaypoint mySpawn? enemySpawn? shortestPath?

/-- The behavioral roles of the tick loop dispatch. -/
inductive Role where
  | gatherer
  | medic
  | fighter
deriving DecidableEq, Repr

/-- The per-creep behavior dispatch of `loop` (main.mjs): a creep with a
CARRY part runs the harvester behavior, else one with a HEAL part runs the
medic behavior, else the creep runs the attacker behavior.  The returned role
names the behavior function invoked; every friendly creep is dispatched. -/
def dispatchRole (body : List PartType) : Role :=
  if PartType.carry ∈ body then Role.gatherer
  else if PartType.heal ∈ body then Role.medic
  else Role.fighter

/-- Modelled from the spec: the Role Classifier contract of spec section 4.2,
which adds an inert category — a carrying part yields Gatherer, else a
healing part yields Medic, else an offensive part yields Fighter, and a unit
matching none is inert and excluded from behavior execution (`none`).  Stated
for refinement comparison with `dispatchRole` above. -/
def specifiedRole (body : List PartType) : Option Role :=
  if PartType.carry ∈ body then some Role.gatherer
  else if PartType.heal ∈ body then some Role.medic
  else if (PartType.attack ∈ body ∨ PartType.rangedAttack ∈ body) then some Role.fighter
  else none

/-- The external inputs of one tick that the squad-state pipeline reads:
the live roster in iteration order, the attacker and medic pools from
`categorizeCreeps`, and the spawn. -/
structure TickInput where
  aliveIds : List CreepId
  attackers : List CreepInfo
  medics : List CreepInfo
  spawnInfo : Option SpawnState
deriving Repr

/-- The squad-state portion of one `loop` iteration, in source order:
`cleanupDeadCreepState`, then `deployKillSquad`, then `deployAttackWaves`
(the only functions of the tick that touch the kill-squad set or flag). -/
def squadTick (t : TickInput) (s : BotState) : BotState :=
  deployAttackWaves t.attackers t.medics t.spawnInfo
    (deployKillSquad t.attackers t.spawnInfo
      (cleanupDeadCreepState t.aliveIds s))

/-- Iterated ticks of the squad-state pipeline. -/
def runTicks (ts : List TickInput) (s : BotState) : BotState :=
  ts.foldl (fun s t => squadTick t s) s

theorem lookupA_insertA_self {α : Type} (m : List (String × α)) (k : String) (v : α) :
    lookupA (insertA m k v) k = some v := by
  simp [lookupA, insertA, List.find?]

theorem lookupA_insertA_ne {α : Type} (m : List (String × α)) (k k' : String) (v : α)
    (h : k' ≠ k) : lookupA (insertA m k v) k' = lookupA m k' := by
  unfold lookupA insertA
  rw [List.find?_cons_of_neg _ (by simp; exact fun hh => h hh.symm)]
  congr 1
  induction m with
  | nil => rfl
  | cons q rest ih =>
    by_cases hq : q.1 = k
    · rw [List.filter_cons_of_neg (by simp [hq])]
      rw [List.find?_cons_of_neg _ (by simp [hq]; exact fun hh => h hh.symm)]
      exact ih
    · rw [List.filter_cons_of_pos (by simp [hq])]
      by_cases hk' : q.1 = k'
      · rw [List.find?_cons_of_pos _ (by simp [hk']),
          List.find?_cons_of_pos _ (by simp [hk'])]
      · rw [List.find?_cons_of_neg _ (by simp [hk']),
          List.find?_cons_of_neg _ (by simp [hk'])]
        exact ih

theorem mem_setAdd (s : List CreepId) (k c : CreepId) :
    c ∈ setAdd s k ↔ c ∈ s ∨ c = k := by
  unfold setAdd
  split
  · rename_i hk
    constructor
    · exact fun h => Or.inl h
    · rintro (h | rfl)
      · exact h
      · exact hk
  · simp

theorem lookupA_eq_some_mem {α : Type} {m : List (String × α)} {k : String} {v : α}
    (h : lookupA m k = some v) : (k, v) ∈ m := by
  unfold lookupA at h
  cases hf : m.find? (fun p => decide (p.1 = k)) with
  | none => rw [hf] at h; simp at h
  | some p =>
    rw [hf] at h
    simp at h
    have hp := List.find?_some hf
    have hm := List.mem_of_find?_eq_some hf
    simp at hp
    have : p = (k, v) := by
      cases p with
      | mk a b => simp at hp h; simp [hp, h]
    exact this ▸ hm

theorem lookupA_filter_alive_eq_none {α : Type} (m : List (String × α))
    (alive : List CreepId) (k : String) (h : k ∉ alive) :
    lookupA (m.filter (fun p => decide (p.1 ∈ alive))) k = none := by
  unfold lookupA
  rw [List.find?_eq_none.2]
  · rfl
  · intro p hp
    have := (List.mem_filter.1 hp).2
    simp at this
    simp
    intro hk
    exact h (hk ▸ this)

theorem needsNewPath_eq_false_iff (refresh thresh tick : Nat) (pos : Pos)
    (tid : TargetId) (e : PathCacheEntry) :
    needsNewPath refresh thresh tick pos tid (some e) = false ↔
      (tid = e.target ∧ tick - e.tick < refresh ∧ e.pathIndex < e.path.length ∧
        offPath thresh pos e = false) := by
  unfold needsNewPath
  simp only [Bool.or_eq_false_iff, decide_eq_false_iff_not, ne_eq, not_not, not_le]
  tauto

/-- C8 counterexample: the first main.mjs variant refutes the claim that a
busy facility blocks squad formation.  Its `deployAttackWaves` takes no spawn
input at all (the facility's busy state is unobservable to it) and its
`loop` invokes it unconditionally every tick, so on a tick where the
facility is mid-production and the quotas are met — here three fresh
attackers and one fresh medic — it still adds the units to the deployed sets,
assigns the squad name "Alpha", and advances the squad counter. -/
theorem deployAttackWavesV1_busyTick_counterexample :
    "b0" ∈ (deployAttackWavesV1
        [⟨"b0", [PartType.attack]⟩, ⟨"b1", [PartType.attack]⟩, ⟨"b2", [PartType.attack]⟩]
        [⟨"w0", [PartType.heal]⟩] ⟨[], [], [], [], 0⟩).deployedAttackers ∧
      lookupA (deployAttackWavesV1
        [⟨"b0", [PartType.attack]⟩, ⟨"b1", [PartType.attack]⟩, ⟨"b2", [PartType.attack]⟩]
        [⟨"w0", [PartType.heal]⟩] ⟨[], [], [], [], 0⟩).squadAssignments "b0" = some "Alpha" ∧
      (deployAttackWavesV1
        [⟨"b0", [PartType.attack]⟩, ⟨"b1", [PartType.attack]⟩, ⟨"b2", [PartType.attack]⟩]
        [⟨"w0", [PartType.heal]⟩] ⟨[], [], [], [], 0⟩).nextSquadIndex = 1 := by
  refine ⟨by decide, by decide, by decide⟩

/-- C8 amended: in the second main.mjs variant, while the production facility
is mid-production (`mySpawn.spawning`), neither `deployAttackWaves` nor
`deployKillSquad` changes any state: no unit enters the deployed sets and no
squad name or leader is assigned that tick.  The first variant (also cited
by the claim) has no such guard and forms squads on busy ticks whenever the
quotas are met, see the counterexample. -/
theorem busyFacility_noDeployment (attackers medics : List CreepInfo) (s : BotState) :
    deployAttackWaves attackers medics (some ⟨true⟩) s = s ∧
      deployKillSquad attackers (some ⟨true⟩) s = s := by
  constructor
  · simp [deployAttackWaves]
  · simp [deployKillSquad]

/-- C7 counterexample: a unit whose loadout has no carrying, healing or
offensive part (body = [MOVE]) is classified inert by the spec
(`specifiedRole` returns `none`, excluded from behavior execution), yet the
tick loop dispatch of the code runs the fighter behavior for it
(`dispatchRole` returns `Role.fighter`). -/
theorem dispatchRole_inert_counterexample :
    specifiedRole [PartType.move] = none ∧
      dispatchRole [PartType.move] = Role.fighter := by
  constructor
  · rfl
  · rfl

/-- C7 amended: the loop dispatch assigns exactly one behavior per creep by
the precedence of the claim — a carrying part yields the gatherer behavior,
else a healing part yields the medic behavior — but every remaining unit,
offensive parts or not, is dispatched to the fighter behavior: there is no
inert category excluded from behavior execution. -/
theorem dispatchRole_precedence (body : List PartType) :
    (dispatchRole body = Role.gatherer ↔ PartType.carry ∈ body) ∧
      (dispatchRole body = Role.medic ↔ (PartType.carry ∉ body ∧ PartType.heal ∈ body)) ∧
      (dispatchRole body = Role.fighter ↔ (PartType.carry ∉ body ∧ PartType.heal ∉ body)) := by
  unfold dispatchRole
  by_cases h1 : PartType.carry ∈ body
  · simp [h1]
  · by_cases h2 : PartType.heal ∈ body
    · simp [h1, h2]
    · simp [h1, h2]

/-- C6: when `cachedMoveTo` needs a new path and the external pathfinding
service returns null or an empty step list, the call is a silent no-op: the
state is unchanged, no movement action is issued, and (the function being
total) no error is raised. -/
theorem cachedMoveTo_nullPath_noop (refresh thresh tick : Nat) (cid : CreepId)
    (pos : Pos) (tid : TargetId) (fp : Option (List Pos)) (s : BotState)
    (hneed : needsNewPath refresh thresh tick pos tid (lookupA s.creepPaths cid) = true)
    (hfp : fp = none ∨ fp = some []) :
    cachedMoveTo refresh thresh tick cid pos tid fp s = (s, none) := by
  unfold cachedMoveTo
  rcases hfp with rfl | rfl <;> simp [hneed]

/-- C6 witness at a concrete input: an empty cache forces a new path and a
null `findPath` result yields no movement and an unchanged state. -/
theorem cachedMoveTo_nullPath_noop_witness :
    cachedMoveTo 5 2 100 "g1" ⟨3, 4⟩ (TargetId.obj "src1") none
        ⟨[], [], [], [], [], 0, false, [], []⟩ =
      (⟨[], [], [], [], [], 0, false, [], []⟩, none) :=
  cachedMoveTo_nullPath_noop 5 2 100 "g1" ⟨3, 4⟩ (TargetId.obj "src1") none
    ⟨[], [], [], [], [], 0, false, [], []⟩ (by decide) (Or.inl rfl)

theorem followStep_preserves (pos : Pos) (e : PathCacheEntry) :
    ((followStep pos e).1).tick = e.tick ∧ ((followStep pos e).1).path = e.path ∧
      ((followStep pos e).1).target = e.target := by
  unfold followStep
  by_cases h : e.pathIndex < e.path.length
  · rw [if_pos h]
    by_cases hp : pos = e.path.getD e.pathIndex default
    · rw [if_pos hp]
      exact ⟨rfl, rfl, rfl⟩
    · rw [if_neg hp]
      exact ⟨rfl, rfl, rfl⟩
  · rw [if_neg h]
    exact ⟨rfl, rfl, rfl⟩

/-- C9: flanking waypoint.  First, when the shortest base-to-base path has
its midpoint north of the y = 50 center line and the enemy base is on the
right half (x > 50), the computed waypoint is the fixed south-side point near
the right edge, (87, 89) (y grows southward).  Second, once any waypoint is
set, `runKillSquadBehavior` never recomputes it: the caching step returns an
already-set waypoint unchanged whatever the current inputs would yield. -/
theorem killSquadWaypoint_flankAndCache (mySpawn enemySpawn : Pos) (p0 : Pos)
    (prest : List Pos)
    (hRight : 50 < enemySpawn.x)
    (hNorth : ((p0 :: prest).getD ((p0 :: prest).length / 2) default).y < 50) :
    calculateKillSquadWaypoint (some mySpawn) (some enemySpawn) (some (p0 :: prest)) =
        some ⟨87, 89⟩ ∧
      ∀ (wp : Pos) (ms es : Option Pos) (sp : Option (List Pos)),
        updateKillSquadWaypoint (some wp) ms es sp = some wp := by
  constructor
  · unfold calculateKillSquadWaypoint
    have h1 : decide (50 < enemySpawn.x) = true := by simpa using hRight
    have h2 : decide (((p0 :: prest).getD ((p0 :: prest).length / 2) default).y < 50) = true := by
      simpa using hNorth
    simp only [h1, h2, if_pos]
  · intro wp ms es sp
    rfl

/-- C9 witness: a concrete shortest path with midpoint at y = 10 (north) and
an enemy spawn at x = 94 (right half) yields the waypoint (87, 89). -/
theorem killSquadWaypoint_flankAndCache_witness :
    calculateKillSquadWaypoint (some ⟨5, 45⟩) (some ⟨94, 54⟩)
        (some [⟨40, 10⟩, ⟨50, 10⟩, ⟨60, 12⟩]) = some ⟨87, 89⟩ :=
  (killSquadWaypoint_flankAndCache ⟨5, 45⟩ ⟨94, 54⟩ ⟨40, 10⟩ [⟨50, 10⟩, ⟨60, 12⟩]
    (by decide) (by decide)).1

/-- C1 counterexample: in the earliest variant (src/unnamed/part_003) the
cursor advances speculatively.  With a valid cached path whose next step is
(1, 0) and the creep still at (0, 0), a `cachedMoveTo` call increments the
cursor from 0 to 1 although the creep position differs from the step the
cursor pointed at — refuting the claim that the cursor is incremented only
when the unit position equals that step. -/
theorem cachedMoveToV0_speculative_advance :
    lookupA (cachedMoveToV0 10 11 "c1" ⟨0, 0⟩ (TargetId.coord 5 5) [⟨9, 9⟩]
        ⟨[("c1", ⟨TargetId.coord 5 5, 10, [⟨1, 0⟩], 0⟩)], [], [], [], [], 0, false, [], []⟩).1.creepPaths
        "c1" = some ⟨TargetId.coord 5 5, 10, [⟨1, 0⟩], 1⟩ ∧
      (⟨0, 0⟩ : Pos) ≠ (⟨1, 0⟩ : Pos) := by
  constructor
  · decide
  · decide

/-- C1 amended (holds of `cachedMoveTo` in both main.mjs variants): when a
call follows a cached path entry (the entry is valid, so it is reused), the
cursor never indexes past the stored step list length, never decreases,
advances by at most one, and is incremented only when the creep position
equals the step the cursor points at.  The earliest variant (part_003)
instead advances the cursor unconditionally, see the counterexample. -/
theorem cachedMoveTo_cursorDiscipline (refresh thresh tick : Nat) (cid : CreepId)
    (pos : Pos) (tid : TargetId) (fp : Option (List Pos)) (s : BotState)
    (e : PathCacheEntry)
    (he : lookupA s.creepPaths cid = some e)
    (hvalid : needsNewPath refresh thresh tick pos tid (some e) = false) :
    lookupA (cachedMoveTo refresh thresh tick cid pos tid fp s).1.creepPaths cid =
        some ((followStep pos e).1) ∧
      ((followStep pos e).1).path = e.path ∧
      e.pathIndex ≤ ((followStep pos e).1).pathIndex ∧
      ((followStep pos e).1).pathIndex ≤ e.path.length ∧
      (((followStep pos e).1).pathIndex = e.pathIndex ∨
        ((followStep pos e).1).pathIndex = e.pathIndex + 1) ∧
      (((followStep pos e).1).pathIndex = e.pathIndex + 1 →
        pos = e.path.getD e.pathIndex default) := by
  have hlt : e.pathIndex < e.path.length :=
    ((needsNewPath_eq_false_iff refresh thresh tick pos tid e).1 hvalid).2.2.1
  have hmain : lookupA (cachedMoveTo refresh thresh tick cid pos tid fp s).1.creepPaths cid =
      some ((followStep pos e).1) := by
    unfold cachedMoveTo
    simp only [he, hvalid, Bool.false_eq_true, if_false]
    exact lookupA_insertA_self _ _ _
  refine ⟨hmain, (followStep_preserves pos e).2.1, ?_⟩
  unfold followStep
  rw [if_pos hlt]
  by_cases hp : pos = e.path.getD e.pathIndex default
  · rw [if_pos hp]
    exact ⟨Nat.le_succ _, hlt, Or.inr rfl, fun _ => hp⟩
  · rw [if_neg hp]
    exact ⟨Nat.le_refl _, Nat.le_of_lt hlt, Or.inl rfl, fun hc => by simp at hc⟩

/-- C1 witness: a creep with a valid cached entry (cursor 0, two steps,
computed one tick ago, same target, not off path) follows the path; the
conclusion is evaluated at that concrete input. -/
theorem cachedMoveTo_cursorDiscipline_witness :
    lookupA (cachedMoveTo 5 2 101 "f1" ⟨0, 0⟩ (TargetId.coord 5 5) none
        ⟨[("f1", ⟨TargetId.coord 5 5, 100, [⟨1, 0⟩, ⟨1, 1⟩], 0⟩)], [], [], [], [], 0, false, [], []⟩).1.creepPaths
        "f1" =
      some ((followStep ⟨0, 0⟩ ⟨TargetId.coord 5 5, 100, [⟨1, 0⟩, ⟨1, 1⟩], 0⟩).1) :=
  (cachedMoveTo_cursorDiscipline 5 2 101 "f1" ⟨0, 0⟩ (TargetId.coord 5 5) none
    ⟨[("f1", ⟨TargetId.coord 5 5, 100, [⟨1, 0⟩, ⟨1, 1⟩], 0⟩)], [], [], [], [], 0, false, [], []⟩
    ⟨TargetId.coord 5 5, 100, [⟨1, 0⟩, ⟨1, 1⟩], 0⟩ (by decide) (by decide)).1

/-- C5: a cached entry is reused exactly while its four validity conditions
hold — same target identity, strictly fewer than the refresh interval ticks
elapsed, cursor not exhausted, creep not significantly off path.  When all
hold the stored entry keeps the old computation tick and step list; when any
fails and the pathfinding service returns a nonempty path, the stored entry
is the freshly computed one (computed at the current tick, with the new
path).  In particular an entry computed at tick 100 under refresh interval 5
is recomputed, not reused, at tick 106 (see the witness). -/
theorem cachedMoveTo_staleness (refresh thresh tick : Nat) (cid : CreepId) (pos : Pos)
    (tid : TargetId) (p0 : Pos) (prest : List Pos) (s : BotState) (e : PathCacheEntry)
    (he : lookupA s.creepPaths cid = some e) :
    ((tid = e.target ∧ tick - e.tick < refresh ∧ e.pathIndex < e.path.length ∧
        offPath thresh pos e = false) →
      lookupA (cachedMoveTo refresh thresh tick cid pos tid (some (p0 :: prest)) s).1.creepPaths
          cid = some ((followStep pos e).1) ∧
        ((followStep pos e).1).tick = e.tick ∧ ((followStep pos e).1).path = e.path) ∧
    (¬(tid = e.target ∧ tick - e.tick < refresh ∧ e.pathIndex < e.path.length ∧
        offPath thresh pos e = false) →
      lookupA (cachedMoveTo refresh thresh tick cid pos tid (some (p0 :: prest)) s).1.creepPaths
          cid = some ((followStep pos ⟨tid, tick, p0 :: prest, 0⟩).1) ∧
        ((followStep pos ⟨tid, tick, p0 :: prest, 0⟩).1).tick = tick ∧
        ((followStep pos ⟨tid, tick, p0 :: prest, 0⟩).1).path = p0 :: prest ∧
        ((followStep pos ⟨tid, tick, p0 :: prest, 0⟩).1).target = tid) := by
  constructor
  · intro hvalid
    have hv : needsNewPath refresh thresh tick pos tid (some e) = false :=
      (needsNewPath_eq_false_iff refresh thresh tick pos tid e).2 hvalid
    have hmain : lookupA (cachedMoveTo refresh thresh tick cid pos tid
        (some (p0 :: prest)) s).1.creepPaths cid = some ((followStep pos e).1) := by
      unfold cachedMoveTo
      simp only [he, hv, Bool.false_eq_true, if_false]
      exact lookupA_insertA_self _ _ _
    exact ⟨hmain, (followStep_preserves pos e).1, (followStep_preserves pos e).2.1⟩
  · intro hinvalid
    have hv : needsNewPath refresh thresh tick pos tid (some e) = true := by
      rcases hb : needsNewPath refresh thresh tick pos tid (some e) with _ | _
      · exact absurd ((needsNewPath_eq_false_iff refresh thresh tick pos tid e).1 hb) hinvalid
      · rfl
    have hmain : lookupA (cachedMoveTo refresh thresh tick cid pos tid
        (some (p0 :: prest)) s).1.creepPaths cid =
        some ((followStep pos ⟨tid, tick, p0 :: prest, 0⟩).1) := by
      unfold cachedMoveTo
      simp only [he, hv, if_true]
      exact lookupA_insertA_self _ _ _
    refine ⟨hmain, ?_, ?_, ?_⟩
    · exact (followStep_preserves pos ⟨tid, tick, p0 :: prest, 0⟩).1
    · exact (followStep_preserves pos ⟨tid, tick, p0 :: prest, 0⟩).2.1
    · exact (followStep_preserves pos ⟨tid, tick, p0 :: prest, 0⟩).2.2

/-- C5 witness: the scenario of the claim — an entry for target (10, 10)
computed at tick 100 with refresh interval 5 is recomputed at tick 106: the
stored entry after the call carries tick 106 and the fresh path. -/
theorem cachedMoveTo_staleness_witness :
    lookupA (cachedMoveTo 5 2 106 "u1" ⟨0, 0⟩ (TargetId.coord 10 10)
        (some [⟨2, 2⟩, ⟨3, 3⟩])
        ⟨[("u1", ⟨TargetId.coord 10 10, 100, [⟨1, 1⟩], 0⟩)], [], [], [], [], 0, false, [], []⟩).1.creepPaths
        "u1" = some ((followStep ⟨0, 0⟩ ⟨TargetId.coord 10 10, 106, [⟨2, 2⟩, ⟨3, 3⟩], 0⟩).1) ∧
      ((followStep (⟨0, 0⟩ : Pos) ⟨TargetId.coord 10 10, 106, [⟨2, 2⟩, ⟨3, 3⟩], 0⟩).1).tick = 106 :=
  ⟨((cachedMoveTo_staleness 5 2 106 "u1" ⟨0, 0⟩ (TargetId.coord 10 10) ⟨2, 2⟩ [⟨3, 3⟩]
      ⟨[("u1", ⟨TargetId.coord 10 10, 100, [⟨1, 1⟩], 0⟩)], [], [], [], [], 0, false, [], []⟩
      ⟨TargetId.coord 10 10, 100, [⟨1, 1⟩], 0⟩ (by decide)).2 (by decide)).1,
    ((cachedMoveTo_staleness 5 2 106 "u1" ⟨0, 0⟩ (TargetId.coord 10 10) ⟨2, 2⟩ [⟨3, 3⟩]
      ⟨[("u1", ⟨TargetId.coord 10 10, 100, [⟨1, 1⟩], 0⟩)], [], [], [], [], 0, false, [], []⟩
      ⟨TargetId.coord 10 10, 100, [⟨1, 1⟩], 0⟩ (by decide)).2 (by decide)).2.1⟩

theorem not_mem_filter_alive (l : List CreepId) (alive : List CreepId) (c : CreepId)
    (h : c ∉ alive) : c ∉ l.filter (fun x => decide (x ∈ alive)) := by
  intro hc
  exact h (by simpa using (List.mem_filter.1 hc).2)

theorem cleanup_leaders_alive (alive : List CreepId) (s : BotState) :
    ∀ q ∈ (cleanupDeadCreepState alive s).squadLeaders, q.2 ∈ alive := by
  intro q hq
  unfold cleanupDeadCreepState at hq
  dsimp only at hq
  rcases List.mem_filterMap.1 hq with ⟨p, hp, hf⟩
  by_cases hpa : p.2 ∈ alive
  · rw [if_pos hpa] at hf
    cases hf
    exact hpa
  · rw [if_neg hpa] at hf
    split at hf
    · rename_i c hc
      cases hf
      exact List.mem_of_find?_eq_some hc
    · cases hf

/-- C3: after `cleanupDeadCreepState`, a unit id absent from the live roster
appears nowhere: not in the path cache, not in the squad-assignment map, not
in any of the four deployment-tracking sets, and not as any squad leader. -/
theorem cleanupDeadCreepState_purgesDead (alive : List CreepId) (s : BotState)
    (cid : CreepId) (h : cid ∉ alive) :
    lookupA (cleanupDeadCreepState alive s).creepPaths cid = none ∧
      lookupA (cleanupDeadCreepState alive s).squadAssignments cid = none ∧
      cid ∉ (cleanupDeadCreepState alive s).deployedAttackers ∧
      cid ∉ (cleanupDeadCreepState alive s).deployedMedics ∧
      cid ∉ (cleanupDeadCreepState alive s).killSquadCreeps ∧
      cid ∉ (cleanupDeadCreepState alive s).killSquadReachedWaypoint ∧
      ∀ sq, lookupA (cleanupDeadCreepState alive s).squadLeaders sq ≠ some cid := by
  refine ⟨?_, ?_, ?_, ?_, ?_, ?_, ?_⟩
  · exact lookupA_filter_alive_eq_none s.creepPaths alive cid h
  · exact lookupA_filter_alive_eq_none s.squadAssignments alive cid h
  · exact not_mem_filter_alive s.deployedAttackers alive cid h
  · exact not_mem_filter_alive s.deployedMedics alive cid h
  · exact not_mem_filter_alive s.killSquadCreeps alive cid h
  · exact not_mem_filter_alive s.killSquadReachedWaypoint alive cid h
  · intro sq hlk
    exact h (cleanup_leaders_alive alive s (sq, cid) (lookupA_eq_some_mem hlk))

/-- C3 witness: a state referencing a dead id "d" everywhere is fully purged
when the live roster is just ["x"]. -/
theorem cleanupDeadCreepState_purgesDead_witness :
    lookupA (cleanupDeadCreepState ["x"]
        ⟨[("d", ⟨TargetId.obj "t", 0, [], 0⟩)], ["d"], ["d"], [("d", "Alpha")],
          [("Alpha", "d")], 1, true, ["d"], ["d"]⟩).creepPaths "d" = none ∧
      "d" ∉ (cleanupDeadCreepState ["x"]
        ⟨[("d", ⟨TargetId.obj "t", 0, [], 0⟩)], ["d"], ["d"], [("d", "Alpha")],
          [("Alpha", "d")], 1, true, ["d"], ["d"]⟩).deployedAttackers :=
  ⟨(cleanupDeadCreepState_purgesDead ["x"] _ "d" (by decide)).1,
    (cleanupDeadCreepState_purgesDead ["x"] _ "d" (by decide)).2.2.1⟩

theorem lookupA_filterMap_none {α β : Type} (f : String × α → Option (String × β))
    (hf : ∀ p q, f p = some q → q.1 = p.1)
    (m : List (String × α)) (k : String) (hk : k ∉ m.map Prod.fst) :
    lookupA (m.filterMap f) k = none := by
  unfold lookupA
  rw [List.find?_eq_none.2]
  · rfl
  · intro q hq
    rcases List.mem_filterMap.1 hq with ⟨p, hp, hfp⟩
    have hq1 := hf p q hfp
    simp only [decide_eq_true_eq]
    intro hqk
    exact hk (hqk ▸ hq1 ▸ List.mem_map_of_mem Prod.fst hp)

theorem lookupA_filterMap_keyPreserving {α β : Type} (f : String × α → Option (String × β))
    (hf : ∀ p q, f p = some q → q.1 = p.1)
    (m : List (String × α)) (hk : (m.map Prod.fst).Nodup) (k : String) (v : α)
    (hlk : lookupA m k = some v) :
    lookupA (m.filterMap f) k = (f (k, v)).map (fun q => q.2) := by
  induction m with
  | nil => simp [lookupA] at hlk
  | cons p rest ih =>
    rw [List.map_cons, List.nodup_cons] at hk
    by_cases hpk : p.1 = k
    · have hv : p = (k, v) := by
        unfold lookupA at hlk
        rw [List.find?_cons_of_pos _ (by simp [hpk])] at hlk
        simp only [Option.map_some', Option.some_inj] at hlk
        cases p with
        | mk a b =>
          simp only at hpk hlk
          simp [hpk, hlk]
      subst hv
      rw [List.filterMap_cons]
      cases hfp : f (k, v) with
      | none =>
        show lookupA (List.filterMap f rest) k =
          Option.map (fun r => r.2) (none : Option (String × β))
        simp only [Option.map_none']
        exact lookupA_filterMap_none f hf rest k (by simpa [hpk] using hk.1)
      | some q =>
        show lookupA (q :: List.filterMap f rest) k =
          Option.map (fun r => r.2) (some (q : String × β))
        have hq1 : q.1 = k := hf _ _ hfp
        unfold lookupA
        rw [List.find?_cons_of_pos _ (by simp [hq1])]
    · have hrest : lookupA rest k = some v := by
        unfold lookupA at hlk ⊢
        rw [List.find?_cons_of_neg _ (by simp [hpk])] at hlk
        exact hlk
      rw [List.filterMap_cons]
      cases hfp : f p with
      | none =>
        show lookupA (List.filterMap f rest) k = Option.map (fun q => q.2) (f (k, v))
        exact ih hk.2 hrest
      | some q =>
        show lookupA (q :: List.filterMap f rest) k = Option.map (fun q => q.2) (f (k, v))
        have hq1 : q.1 = p.1 := hf _ _ hfp
        unfold lookupA
        rw [List.find?_cons_of_neg _ (by simp [hq1, hpk])]
        exact ih hk.2 hrest

/-- C4: leader reconciliation in `cleanupDeadCreepState`.  For a squad whose
recorded leader id is dead (absent from the live roster), whatever id the
leader map holds for that squad afterwards — if it holds one at all — is a
live creep that is in the (pruned) deployed-attacker set and assigned to
that same squad; a dead id is never retained or installed.  (When no such
fighter remains the entry is removed and the lookup yields `none`, so the
implication below is vacuous.) -/
theorem cleanupDeadCreepState_reconcileLeader (alive : List CreepId) (s : BotState)
    (sq lid : String)
    (hk : (s.squadLeaders.map Prod.fst).Nodup)
    (hlid : lookupA s.squadLeaders sq = some lid)
    (hdead : lid ∉ alive) :
    ∀ c, lookupA (cleanupDeadCreepState alive s).squadLeaders sq = some c →
      c ∈ alive ∧ c ∈ (cleanupDeadCreepState alive s).deployedAttackers ∧
        lookupA (cleanupDeadCreepState alive s).squadAssignments c = some sq := by
  intro c
  unfold cleanupDeadCreepState
  dsimp only
  intro hc
  rw [lookupA_filterMap_keyPreserving _ ?hf s.squadLeaders hk sq lid hlid] at hc
  case hf =>
    intro p q hpq
    by_cases hpa : p.2 ∈ alive
    · rw [if_pos hpa] at hpq
      cases hpq
      rfl
    · rw [if_neg hpa] at hpq
      split at hpq
      · cases hpq
        rfl
      · cases hpq
  rw [if_neg (by simpa using hdead)] at hc
  split at hc
  · rename_i c0 hfind
    simp only [Option.map_some'] at hc
    cases hc
    have hmem := List.mem_of_find?_eq_some hfind
    have hpred := List.find?_some hfind
    rw [Bool.and_eq_true, decide_eq_true_eq, decide_eq_true_eq] at hpred
    exact ⟨hmem, hpred.2, hpred.1⟩
  · simp at hc

/-- C4 witness: squad "Alpha" had the dead leader "dl"; after cleanup the
installed leader "x" is alive, deployed and assigned to "Alpha". -/
theorem cleanupDeadCreepState_reconcileLeader_witness :
    ("x" ∈ ["x"] ∧
      "x" ∈ (cleanupDeadCreepState ["x"]
        ⟨[], ["x"], [], [("x", "Alpha")], [("Alpha", "dl")], 1, false, [], []⟩).deployedAttackers ∧
      lookupA (cleanupDeadCreepState ["x"]
        ⟨[], ["x"], [], [("x", "Alpha")], [("Alpha", "dl")], 1, false, [], []⟩).squadAssignments
        "x" = some "Alpha") :=
  cleanupDeadCreepState_reconcileLeader ["x"]
    ⟨[], ["x"], [], [("x", "Alpha")], [("Alpha", "dl")], 1, false, [], []⟩
    "Alpha" "dl" (by decide) (by decide) (by decide) "x" (by decide)

theorem deployKillSquad_preservesWhenDeployed (attackers : List CreepInfo)
    (spawn? : Option SpawnState) (s : BotState) (h : s.killSquadDeployed = true) :
    deployKillSquad attackers spawn? s = s := by
  unfold deployKillSquad
  split
  · rfl
  · simp [h]

theorem deployAttackWaves_killSquadFields (attackers medics : List CreepInfo)
    (spawn? : Option SpawnState) (s : BotState) :
    (deployAttackWaves attackers medics spawn? s).killSquadCreeps = s.killSquadCreeps ∧
      (deployAttackWaves attackers medics spawn? s).killSquadDeployed = s.killSquadDeployed := by
  unfold deployAttackWaves
  split
  · exact ⟨rfl, rfl⟩
  · dsimp only
    split
    · exact ⟨rfl, rfl⟩
    · exact ⟨rfl, rfl⟩

theorem cleanup_killSquadFields (alive : List CreepId) (s : BotState) :
    (cleanupDeadCreepState alive s).killSquadDeployed = s.killSquadDeployed ∧
      ∀ c, c ∈ (cleanupDeadCreepState alive s).killSquadCreeps → c ∈ s.killSquadCreeps := by
  constructor
  · rfl
  · intro c hc
    exact (List.mem_filter.1 hc).1

theorem squadTick_oneShot (t : TickInput) (s : BotState) (h : s.killSquadDeployed = true) :
    (squadTick t s).killSquadDeployed = true ∧
      ∀ c, c ∈ (squadTick t s).killSquadCreeps → c ∈ s.killSquadCreeps := by
  unfold squadTick
  have h1 := cleanup_killSquadFields t.aliveIds s
  have hs1 : (cleanupDeadCreepState t.aliveIds s).killSquadDeployed = true := h1.1.trans h
  rw [deployKillSquad_preservesWhenDeployed t.attackers t.spawnInfo _ hs1]
  have h3 := deployAttackWaves_killSquadFields t.attackers t.medics t.spawnInfo
    (cleanupDeadCreepState t.aliveIds s)
  refine ⟨h3.2.trans hs1, fun c hc => h1.2 c ?_⟩
  rw [h3.1] at hc
  exact hc

/-- C10: the kill squad is a one-shot deployment.  Once `killSquadDeployed`
is set, any number of further ticks of the squad-state pipeline (cleanup,
`deployKillSquad`, `deployAttackWaves` — the only functions touching the
kill-squad tables) keeps the flag set and never adds a unit to the
kill-squad membership set: membership can only shrink (dead members are
pruned), even if qualifying 4-MOVE/2-ATTACK attackers exist later. -/
theorem killSquad_oneShot (ts : List TickInput) (s : BotState)
    (h : s.killSquadDeployed = true) :
    (runTicks ts s).killSquadDeployed = true ∧
      ∀ c, c ∈ (runTicks ts s).killSquadCreeps → c ∈ s.killSquadCreeps := by
  induction ts generalizing s with
  | nil => exact ⟨h, fun c hc => hc⟩
  | cons t rest ih =>
    have h1 := squadTick_oneShot t s h
    have h2 := ih (squadTick t s) h1.1
    exact ⟨h2.1, fun c hc => h1.2 c (h2.2 c hc)⟩

/-- C10 witness: after the kill squad has deployed (flag set, member "k1"),
a further tick with a fresh qualifying attacker pool leaves the flag set,
and the only members afterwards were already members. -/
theorem killSquad_oneShot_witness :
    (runTicks [⟨["k1", "n1", "n2"],
        [⟨"n1", [PartType.move, PartType.move, PartType.move, PartType.move,
          PartType.attack, PartType.attack]⟩,
         ⟨"n2", [PartType.move, PartType.move, PartType.move, PartType.move,
          PartType.attack, PartType.attack]⟩], [], some ⟨false⟩⟩]
      ⟨[], ["k1"], [], [], [], 0, true, ["k1"], []⟩).killSquadDeployed = true :=
  (killSquad_oneShot _ _ rfl).1

theorem deployAttackWaves_reduce (attackers medics : List CreepInfo) (s : BotState)
    (a0 a1 a2 m0 : CreepInfo) (arest mrest : List CreepInfo)
    (hA : undeployedAttackersOf attackers s = a0 :: a1 :: a2 :: arest)
    (hM : undeployedMedicsOf medics s = m0 :: mrest) :
    deployAttackWaves attackers medics (some ⟨false⟩) s =
      { s with
        deployedAttackers := setAdd (setAdd (setAdd s.deployedAttackers a0.id) a1.id) a2.id
        deployedMedics := setAdd s.deployedMedics m0.id
        squadAssignments :=
          insertA (insertA (insertA (insertA s.squadAssignments a0.id
            (natoAlphabet.getD (s.nextSquadIndex % natoAlphabet.length) "")) a1.id
            (natoAlphabet.getD (s.nextSquadIndex % natoAlphabet.length) "")) a2.id
            (natoAlphabet.getD (s.nextSquadIndex % natoAlphabet.length) "")) m0.id
            (natoAlphabet.getD (s.nextSquadIndex % natoAlphabet.length) "")
        squadLeaders := insertA s.squadLeaders
          (natoAlphabet.getD (s.nextSquadIndex % natoAlphabet.length) "") a0.id
        nextSquadIndex := s.nextSquadIndex + 1 } := by
  simp only [deployAttackWaves]
  rw [hA, hM]
  have h2 : 3 ≤ (a0 :: a1 :: a2 :: arest).length ∧ 1 ≤ (m0 :: mrest).length := by
    constructor <;> simp [List.length_cons]
  rw [if_neg (by simp), if_pos h2]
  simp only [List.take, List.cons_append, List.nil_append, List.foldl]

/-- C2 counterexample: the first main.mjs variant refutes the claim's clause
that the first fighter in the selection order is recorded as leader.  With
three fresh attackers, one fresh medic and the facility idle, its
`deployAttackWaves` forms the squad — the equation below gives the entire
post-state of that variant (its complete module-level tracker set: path
cache, the two deployed sets, the assignment map, the squad counter) — and
that state holds only memberships, "Alpha" tags and the advanced counter:
no component records "a0" (or anyone) as leader, because the variant has no
squad-leader table at all. -/
theorem deployAttackWavesV1_noLeader_counterexample :
    deployAttackWavesV1
        [⟨"a0", [PartType.attack]⟩, ⟨"a1", [PartType.attack]⟩, ⟨"a2", [PartType.attack]⟩]
        [⟨"m0", [PartType.heal]⟩] ⟨[], [], [], [], 0⟩ =
      ⟨[], ["a0", "a1", "a2"], ["m0"],
        [("m0", "Alpha"), ("a2", "Alpha"), ("a1", "Alpha"), ("a0", "Alpha")], 1⟩ := by
  decide

/-- C2 amended: with the production facility idle and at least three
undeployed attackers (a0, a1, a2 first in the selection order) and one
undeployed medic (m0 first) available simultaneously, `deployAttackWaves` of
the second main.mjs variant forms exactly one squad that tick: the squad
counter advances by exactly one; exactly the four creeps a0, a1, a2, m0 —
three fighters plus one medic, no partial squad — are tagged with the name
at position `nextSquadIndex` of the cyclic NATO pool, every other creep's
assignment is untouched; the first fighter a0 is recorded as the squad's
leader; and the deployed sets grow by exactly those fighters and that medic.
The first variant (also cited by the claim) forms and tags the same
three-plus-one squad but records no leader, see the counterexample. -/
theorem deployAttackWaves_formsOneSquad (attackers medics : List CreepInfo)
    (s : BotState) (a0 a1 a2 m0 : CreepInfo) (arest mrest : List CreepInfo)
    (hA : undeployedAttackersOf attackers s = a0 :: a1 :: a2 :: arest)
    (hM : undeployedMedicsOf medics s = m0 :: mrest)
    (h01 : a0.id ≠ a1.id) (h02 : a0.id ≠ a2.id) (h12 : a1.id ≠ a2.id)
    (hm0 : m0.id ≠ a0.id) (hm1 : m0.id ≠ a1.id) (hm2 : m0.id ≠ a2.id) :
    (deployAttackWaves attackers medics (some ⟨false⟩) s).nextSquadIndex =
        s.nextSquadIndex + 1 ∧
      lookupA (deployAttackWaves attackers medics (some ⟨false⟩) s).squadAssignments a0.id =
        some (natoAlphabet.getD (s.nextSquadIndex % natoAlphabet.length) "") ∧
      lookupA (deployAttackWaves attackers medics (some ⟨false⟩) s).squadAssignments a1.id =
        some (natoAlphabet.getD (s.nextSquadIndex % natoAlphabet.length) "") ∧
      lookupA (deployAttackWaves attackers medics (some ⟨false⟩) s).squadAssignments a2.id =
        some (natoAlphabet.getD (s.nextSquadIndex % natoAlphabet.length) "") ∧
      lookupA (deployAttackWaves attackers medics (some ⟨false⟩) s).squadAssignments m0.id =
        some (natoAlphabet.getD (s.nextSquadIndex % natoAlphabet.length) "") ∧
      (∀ c, c ≠ a0.id → c ≠ a1.id → c ≠ a2.id → c ≠ m0.id →
        lookupA (deployAttackWaves attackers medics (some ⟨false⟩) s).squadAssignments c =
          lookupA s.squadAssignments c) ∧
      lookupA (deployAttackWaves attackers medics (some ⟨false⟩) s).squadLeaders
          (natoAlphabet.getD (s.nextSquadIndex % natoAlphabet.length) "") = some a0.id ∧
      (∀ c, c ∈ (deployAttackWaves attackers medics (some ⟨false⟩) s).deployedAttackers ↔
        (c ∈ s.deployedAttackers ∨ c = a0.id ∨ c = a1.id ∨ c = a2.id)) ∧
      (∀ c, c ∈ (deployAttackWaves attackers medics (some ⟨false⟩) s).deployedMedics ↔
        (c ∈ s.deployedMedics ∨ c = m0.id)) := by
  rw [deployAttackWaves_reduce attackers medics s a0 a1 a2 m0 arest mrest hA hM]
  refine ⟨rfl, ?_, ?_, ?_, ?_, ?_, ?_, ?_, ?_⟩
  · rw [lookupA_insertA_ne _ _ _ _ hm0.symm, lookupA_insertA_ne _ _ _ _ h02,
      lookupA_insertA_ne _ _ _ _ h01, lookupA_insertA_self]
  · rw [lookupA_insertA_ne _ _ _ _ hm1.symm, lookupA_insertA_ne _ _ _ _ h12,
      lookupA_insertA_self]
  · rw [lookupA_insertA_ne _ _ _ _ hm2.symm, lookupA_insertA_self]
  · rw [lookupA_insertA_self]
  · intro c hc0 hc1 hc2 hcm
    rw [lookupA_insertA_ne _ _ _ _ hcm, lookupA_insertA_ne _ _ _ _ hc2,
      lookupA_insertA_ne _ _ _ _ hc1, lookupA_insertA_ne _ _ _ _ hc0]
  · rw [lookupA_insertA_self]
  · intro c
    simp [mem_setAdd, or_assoc]
  · intro c
    simp [mem_setAdd]

/-- C2 witness: three fresh attackers and one fresh medic with the facility
idle and an empty initial state form squad "Alpha" with leader "a0". -/
theorem deployAttackWaves_formsOneSquad_witness :
    lookupA (deployAttackWaves
        [⟨"a0", [PartType.attack]⟩, ⟨"a1", [PartType.attack]⟩, ⟨"a2", [PartType.attack]⟩]
        [⟨"m0", [PartType.heal]⟩] (some ⟨false⟩)
        ⟨[], [], [], [], [], 0, false, [], []⟩).squadLeaders
        (natoAlphabet.getD (0 % natoAlphabet.length) "") = some "a0" ∧
      (deployAttackWaves
        [⟨"a0", [PartType.attack]⟩, ⟨"a1", [PartType.attack]⟩, ⟨"a2", [PartType.attack]⟩]
        [⟨"m0", [PartType.heal]⟩] (some ⟨false⟩)
        ⟨[], [], [], [], [], 0, false, [], []⟩).nextSquadIndex = 0 + 1 :=
  ⟨(deployAttackWaves_formsOneSquad
      [⟨"a0", [PartType.attack]⟩, ⟨"a1", [PartType.attack]⟩, ⟨"a2", [PartType.attack]⟩]
      [⟨"m0", [PartType.heal]⟩] ⟨[], [], [], [], [], 0, false, [], []⟩
      ⟨"a0", [PartType.attack]⟩ ⟨"a1", [PartType.attack]⟩ ⟨"a2", [PartType.attack]⟩
      ⟨"m0", [PartType.heal]⟩ [] [] (by decide) (by decide) (by decide) (by decide)
      (by decide) (by decide) (by decide) (by decide)).2.2.2.2.2.2.1,
    (deployAttackWaves_formsOneSquad
      [⟨"a0", [PartType.attack]⟩, ⟨"a1", [PartType.attack]⟩, ⟨"a2", [PartType.attack]⟩]
      [⟨"m0", [PartType.heal]⟩] ⟨[], [], [], [], [], 0, false, [], []⟩
      ⟨"a0", [PartType.attack]⟩ ⟨"a1", [PartType.attack]⟩ ⟨"a2", [PartType.attack]⟩
      ⟨"m0", [PartType.heal]⟩ [] [] (by decide) (by decide) (by decide) (by decide)
      (by decide) (by decide) (by decide) (by decide)).1⟩

end ScreepsArena
